import Mathlib

/-!
Verification of `github_repo_metrics_to_sqlite.py`: a shallow embedding of
the script's fetch/normalize functions, its SQLite upsert semantics, and the
multi-entity store described by the specification, together with theorems
settling the specification's claims.

The embedding has two layers:

* Source layer: direct translations of the Python functions in
  `src/github_repo_metrics_to_sqlite.py` (`gh_get`, `fetch_traffic_views`,
  `fetch_repo_counts`, `upsert_traffic_views`, `upsert_repo_counts`,
  `load_config`, `main`).  The script's tables are keyed by `date` alone
  (single tracked repository).
* Spec layer: the multi-entity store of the specification (tables keyed by
  (entity-namespace, entity-name, date)); the repository's multi-entity
  schema variant is not among the provided source files, so those
  definitions are modelled from the spec, with the same conflict semantics
  as the source's single-entity SQL.
-/

/-! ## Source layer: HTTP fetch (`gh_get`) -/

/-- Outcome of one HTTP GET as seen by `gh_get`'s `try` block: a decoded
JSON body on success, an `HTTPError` with status code and body on a
non-success status, or a `URLError` (network-level failure, including the
timeout of the 30-second bound passed to `urlopen`). -/
inductive HttpResult (α : Type) where
  | ok (body : α)
  | httpError (code : Nat) (body : String)
  | urlError (reason : String)
deriving DecidableEq

/-- The two failure kinds `gh_get` signals (via `SystemExit` messages in the
script): an upstream non-success response carrying status and body, or a
transport-level failure carrying the reason. -/
inductive GhFailure where
  | upstream (status : Nat) (body : String)
  | transport (reason : String)
deriving DecidableEq

/-- The `timeout=30` argument of the `urlopen` call in `gh_get`. -/
def ghTimeoutSeconds : Nat := 30

/-- The reason string carried by a `URLError` produced by timeout expiry. -/
def timedOutReason : String := "timed out"

/-- `gh_get`: returns the decoded body on success; an `HTTPError` becomes the
upstream failure with the response's status code and body; a `URLError`
(including timeout) becomes a transport failure. -/
def gh_get {α : Type} (resp : HttpResult α) : Except GhFailure α :=
  match resp with
  | .ok b => .ok b
  | .httpError c b => .error (.upstream c b)
  | .urlError r => .error (.transport r)

/-! ## Source layer: fetch and normalize -/

/-- One element of the upstream `views` array:
`{"timestamp": ..., "count": ..., "uniques": ...}`.  The script reads
`timestamp` with `v["timestamp"]` (mandatory) and the two counters with
`v.get(..., 0)` (optional), so the latter are `Option`s here. -/
structure ViewItem where
  timestamp : String
  count : Option Int
  uniques : Option Int
deriving DecidableEq

/-- The traffic endpoint's payload as consumed by `fetch_traffic_views`: the
script reads only `payload.get("views", [])`, so a payload is the optional
`views` array. -/
structure TrafficPayload where
  views : Option (List ViewItem)
deriving DecidableEq

/-- A row of `traffic_views_daily` as built by the script: keys `date`
(`YYYY-MM-DD`), `views`, `uniques`. -/
structure TrafficViewRow where
  date : String
  views : Int
  uniques : Int
deriving DecidableEq

/-- `fetch_traffic_views`: iterates over `payload.get("views", [])`, truncates
each item's timestamp to its first 10 characters and defaults missing
`count`/`uniques` to 0, appending rows in payload order. -/
def fetch_traffic_views (p : TrafficPayload) : List TrafficViewRow :=
  (p.views.getD []).foldl
    (fun rows v => rows ++ [⟨v.timestamp.take 10, v.count.getD 0, v.uniques.getD 0⟩]) []

/-- The repository-metadata JSON object as consumed by `fetch_repo_counts`:
a finite map from field names to integer values (first binding wins, as in a
Python dict); fields the script does not read are irrelevant and omitted. -/
abbrev RepoJson : Type := List (String × Int)

/-- `d.get(k, default)` on the embedded JSON object. -/
def dictGet (j : RepoJson) (k : String) (default : Int) : Int :=
  ((j.find? (fun kv => kv.1 == k)).map (·.2)).getD default

/-- A row of `repo_counts_daily` as built by the script: keys `date`,
`stars`, `forks`, `watchers`. -/
structure RepoCountRow where
  date : String
  stars : Int
  forks : Int
  watchers : Int
deriving DecidableEq

/-- `fetch_repo_counts`: stamps the snapshot with the caller's current UTC
date (`now`, the script's `datetime.now(timezone.utc).strftime("%Y-%m-%d")`)
and reads `stargazers_count`, `forks_count` and `subscribers_count` with
default 0. -/
def fetch_repo_counts (now : String) (j : RepoJson) : RepoCountRow :=
  ⟨now,
   dictGet j "stargazers_count" 0,
   dictGet j "forks_count" 0,
   dictGet j "subscribers_count" 0⟩

/-! ## Source layer: SQLite upserts (single-entity tables) -/

/-- One `INSERT ... ON CONFLICT(date) DO UPDATE SET views, uniques` into
`traffic_views_daily`: if a row with the same `date` exists its `views` and
`uniques` are overwritten, otherwise the row is appended. -/
def upsertTrafficViewRow (t : List TrafficViewRow) (r : TrafficViewRow) :
    List TrafficViewRow :=
  if t.any (fun x => decide (x.date = r.date)) then
    t.map (fun x =>
      if x.date = r.date then { x with views := r.views, uniques := r.uniques } else x)
  else
    t ++ [r]

/-- `upsert_traffic_views`: the `executemany` over the fetched rows. -/
def upsert_traffic_views (t : List TrafficViewRow) (rows : List TrafficViewRow) :
    List TrafficViewRow :=
  rows.foldl upsertTrafficViewRow t

/-- `upsert_repo_counts`: single-row
`INSERT ... ON CONFLICT(date) DO UPDATE SET stars, forks, watchers` into
`repo_counts_daily`. -/
def upsert_repo_counts (c : List RepoCountRow) (s : RepoCountRow) :
    List RepoCountRow :=
  if c.any (fun x => decide (x.date = s.date)) then
    c.map (fun x =>
      if x.date = s.date then
        { x with stars := s.stars, forks := s.forks, watchers := s.watchers }
      else x)
  else
    c ++ [s]

/-! ## Source layer: configuration and `main` -/

/-- The configuration object read from `config.json`; `config.get(k)` yields
`None` for a missing key, hence the `Option` fields. -/
structure Config where
  github_token : Option String
  owner : Option String
  repo : Option String
deriving DecidableEq

/-- Python truthiness of the token as tested by `if token:` in `gh_get`:
`None` and the empty string are falsy. -/
def tokenTruthy : Option String → Bool
  | none => false
  | some s => !(s == "")

/-- Python `f"{x}"` on an optional string: `None` renders as `"None"`. -/
def pyStr : Option String → String
  | none => "None"
  | some s => s

/-- The database the script owns: the two tables. -/
structure DB where
  traffic : List TrafficViewRow
  counts : List RepoCountRow
deriving DecidableEq

/-- Externally observable steps of one run, in order: the `ensure_db` schema
step, each network GET (with whether an Authorization header was attached),
and each table write. -/
inductive RunAction where
  | ensureDb : RunAction
  | netGet (path : String) (hasAuth : Bool) : RunAction
  | writeTraffic (rows : List TrafficViewRow) : RunAction
  | writeCounts (row : RepoCountRow) : RunAction
deriving DecidableEq

/-- The environment of one run: the configuration file (`none` when the file
is missing), the two upstream payloads, and today's UTC date. -/
structure Env where
  configFile : Option Config
  trafficPayload : TrafficPayload
  repoPayload : RepoJson
  today : String

/-- `load_config`: raises `FileNotFoundError` when `config.json` is missing,
otherwise returns the parsed object. -/
def load_config (e : Env) : Except String Config :=
  match e.configFile with
  | none => .error "Config file not found"
  | some c => .ok c

/-- `main` on the successful-fetch path: `load_config`, `ensure_db`, fetch
traffic, upsert traffic only when the fetched list is non-empty, fetch the
counters snapshot, upsert it unconditionally.  Returns the trace of
observable actions and the final database (or the error when the
configuration file is missing, in which case no action has occurred). -/
def mainRun (e : Env) (db : DB) : List RunAction × Except String DB :=
  match e.configFile with
  | none => ([], .error "Config file not found")
  | some config =>
    let auth := tokenTruthy config.github_token
    let owner := pyStr config.owner
    let repo := pyStr config.repo
    let traffic_rows := fetch_traffic_views e.trafficPayload
    let db1 :=
      if traffic_rows.isEmpty then db
      else { db with traffic := upsert_traffic_views db.traffic traffic_rows }
    let tActs :=
      if traffic_rows.isEmpty then [] else [RunAction.writeTraffic traffic_rows]
    let snapshot := fetch_repo_counts e.today e.repoPayload
    let db2 := { db1 with counts := upsert_repo_counts db1.counts snapshot }
    ([RunAction.ensureDb,
      RunAction.netGet ("/repos/" ++ owner ++ "/" ++ repo ++ "/traffic/views") auth]
      ++ tActs
      ++ [RunAction.netGet ("/repos/" ++ owner ++ "/" ++ repo) auth,
          RunAction.writeCounts snapshot],
     .ok db2)

/-! ## Spec layer: the multi-entity store

Modelled from the spec: the repository's multi-entity schema variant is not
among the provided source files; the definitions below follow the
specification's data model and Metric Store contract, using the same
`ON CONFLICT ... DO UPDATE` semantics as the source's single-entity SQL. -/

/-- Modelled from the spec: a tracked entity, an (owner-namespace, name)
pair. -/
structure TrackedEntity where
  ns : String
  name : String
deriving DecidableEq

/-- Modelled from the spec: one calendar day's traffic for one entity — a row
of the multi-entity `traffic_views_daily` table. -/
structure DailyTrafficRecord where
  entity : TrackedEntity
  date : String
  views : Int
  uniques : Int
deriving DecidableEq

/-- Modelled from the spec: a point-in-time counters reading for one entity —
a row of the multi-entity `repo_counts_daily` table. -/
structure CounterSnapshot where
  entity : TrackedEntity
  date : String
  stars : Int
  forks : Int
  watchers : Int
deriving DecidableEq

/-- The composite primary key (entity, date) of a traffic row. -/
def DailyTrafficRecord.key (r : DailyTrafficRecord) : TrackedEntity × String :=
  (r.entity, r.date)

/-- The composite primary key (entity, date) of a counters row. -/
def CounterSnapshot.key (r : CounterSnapshot) : TrackedEntity × String :=
  (r.entity, r.date)

/-- Modelled from the spec: `ensure_schema()` — both tables exist and start
empty when the database file is created. -/
def ensure_schema : List DailyTrafficRecord × List CounterSnapshot :=
  ([], [])

/-- Modelled from the spec: writing one traffic record with conflict policy
replace-on-key-match — a row with the same (entity, date) has its `views` and
`uniques` overwritten, otherwise the record is inserted. -/
def upsertTrafficRecord (t : List DailyTrafficRecord) (r : DailyTrafficRecord) :
    List DailyTrafficRecord :=
  if t.any (fun x => decide (x.key = r.key)) then
    t.map (fun x =>
      if x.key = r.key then { x with views := r.views, uniques := r.uniques } else x)
  else
    t ++ [r]

/-- Modelled from the spec: `upsert_traffic(entity, records)` — each record
written with replace-on-key-match, batched. -/
def upsert_traffic (t : List DailyTrafficRecord) (rs : List DailyTrafficRecord) :
    List DailyTrafficRecord :=
  rs.foldl upsertTrafficRecord t

/-- Modelled from the spec: `upsert_counters(entity, snapshot)` — one row,
replace-on-key-match. -/
def upsert_counters (c : List CounterSnapshot) (s : CounterSnapshot) :
    List CounterSnapshot :=
  if c.any (fun x => decide (x.key = s.key)) then
    c.map (fun x =>
      if x.key = s.key then
        { x with stars := s.stars, forks := s.forks, watchers := s.watchers }
      else x)
  else
    c ++ [s]

/-- The primary-key invariant of the traffic table: no two rows share an
(entity, date) key. -/
def trafficPkOk (t : List DailyTrafficRecord) : Prop :=
  (t.map DailyTrafficRecord.key).Nodup

/-- The primary-key invariant of the counters table. -/
def counterPkOk (c : List CounterSnapshot) : Prop :=
  (c.map CounterSnapshot.key).Nodup

instance (t : List DailyTrafficRecord) : Decidable (trafficPkOk t) :=
  inferInstanceAs (Decidable ((t.map DailyTrafficRecord.key).Nodup))

instance (c : List CounterSnapshot) : Decidable (counterPkOk c) :=
  inferInstanceAs (Decidable ((c.map CounterSnapshot.key).Nodup))

/-- The rows of the traffic table holding a given (entity, date) key. -/
def rowsFor (t : List DailyTrafficRecord) (k : TrackedEntity × String) :
    List DailyTrafficRecord :=
  t.filter (fun x => decide (x.key = k))

/-! ## Spec layer: read-side queries -/

/-- Text ordering used for `ORDER BY` semantics: a string compares as its
list of characters, lexicographically. -/
def strKey (s : String) : List Char := s.data

/-- The sort key of one rollup group: namespace, then name, then year-month
(ascending lexicographic on each component). -/
def rollSortKey (k : TrackedEntity × String) : List (List Char) :=
  [strKey k.1.ns, strKey k.1.name, strKey k.2]

/-- Ordering of rollup groups: by entity (namespace then name) ascending,
then by year-month ascending. -/
def rollKeyLe (a b : TrackedEntity × String) : Prop :=
  rollSortKey a ≤ rollSortKey b

instance : DecidableRel rollKeyLe :=
  fun a b => inferInstanceAs (Decidable (rollSortKey a ≤ rollSortKey b))

instance : IsTotal (TrackedEntity × String) rollKeyLe :=
  ⟨fun a b => le_total (rollSortKey a) (rollSortKey b)⟩

instance : IsTrans (TrackedEntity × String) rollKeyLe :=
  ⟨fun _ _ _ h h' => le_trans h h'⟩

/-- Ordering of entities: namespace then name, ascending. -/
def entLe (a b : TrackedEntity) : Prop :=
  [strKey a.ns, strKey a.name] ≤ [strKey b.ns, strKey b.name]

instance : DecidableRel entLe :=
  fun a b =>
    inferInstanceAs (Decidable ([strKey a.ns, strKey a.name] ≤ [strKey b.ns, strKey b.name]))

instance : IsTotal TrackedEntity entLe :=
  ⟨fun a b => le_total [strKey a.ns, strKey a.name] [strKey b.ns, strKey b.name]⟩

instance : IsTrans TrackedEntity entLe :=
  ⟨fun _ _ _ h h' => le_trans h h'⟩

/-- The group of a traffic row in the monthly rollup: its entity and the
first 7 characters of its date (`substr(date, 1, 7)`, the `YYYY-MM`
prefix). -/
def monthKey (r : DailyTrafficRecord) : TrackedEntity × String :=
  (r.entity, r.date.take 7)

/-- One output row of the monthly rollup. -/
structure RollupRow where
  entity : TrackedEntity
  ym : String
  total_views : Int
  sum_uniques : Int
deriving DecidableEq

/-- The traffic rows belonging to one (entity, year-month) group. -/
def groupRows (t : List DailyTrafficRecord) (k : TrackedEntity × String) :
    List DailyTrafficRecord :=
  t.filter (fun r => decide (monthKey r = k))

/-- Modelled from the spec: `monthly_rollup()` — `GROUP BY` entity and the
`YYYY-MM` prefix of `date`, `SUM(views)` and `SUM(uniques)` per group,
`ORDER BY` entity (namespace then name) then year-month, ascending. -/
def monthly_rollup (t : List DailyTrafficRecord) : List RollupRow :=
  (List.insertionSort rollKeyLe (t.map monthKey).dedup).map (fun k =>
    ⟨k.1, k.2,
     ((groupRows t k).map (·.views)).sum,
     ((groupRows t k).map (·.uniques)).sum⟩)

/-- The counters rows of one entity. -/
def entityRows (c : List CounterSnapshot) (e : TrackedEntity) :
    List CounterSnapshot :=
  c.filter (fun r => decide (r.entity = e))

/-- The row with the maximum `date` in a list of counters rows (`none` on an
empty list). -/
def maxByDate : List CounterSnapshot → Option CounterSnapshot
  | [] => none
  | x :: xs =>
    some (xs.foldl (fun b y => if strKey b.date ≤ strKey y.date then y else b) x)

/-- Modelled from the spec: `latest_counts()` — for each entity present in
the counters table, the single row with the maximum `date`, ordered by
entity (namespace then name) ascending. -/
def latest_counts (c : List CounterSnapshot) : List CounterSnapshot :=
  (List.insertionSort entLe (c.map (·.entity)).dedup).filterMap
    (fun e => maxByDate (entityRows c e))

/-! ## Spec layer: multi-entity configuration checks -/

/-- Modelled from the spec: the multi-entity variant's configuration — the
access credential plus the declarative list of tracked entities. -/
structure MultiConfig where
  github_token : Option String
  entities : List TrackedEntity
deriving DecidableEq

/-- Modelled from the spec: the fatal configuration-error kinds that abort a
run before any network or database work. -/
inductive ConfigFailure where
  | fileMissing : ConfigFailure
  | emptyEntityList : ConfigFailure
deriving DecidableEq

/-- Modelled from the spec: the multi-entity variant's startup validation —
a missing configuration file or an empty entity list aborts before any
network or database work. -/
def load_config_multi (file : Option MultiConfig) : Except ConfigFailure MultiConfig :=
  match file with
  | none => .error .fileMissing
  | some c => if c.entities.isEmpty then .error .emptyEntityList else .ok c

/-! ## Lemmas: upsert conflict semantics -/

/-- Overwriting `views`/`uniques` keeps the row's (entity, date) key. -/
theorem trafficUpd_key (x r : DailyTrafficRecord) :
    ({ x with views := r.views, uniques := r.uniques } : DailyTrafficRecord).key = x.key :=
  rfl

/-- Overwriting the counters of a row whose key matches the incoming record
yields exactly the incoming record. -/
theorem trafficUpd_eq (x r : DailyTrafficRecord) (h : x.key = r.key) :
    ({ x with views := r.views, uniques := r.uniques } : DailyTrafficRecord) = r := by
  cases x
  cases r
  simp only [DailyTrafficRecord.key, Prod.mk.injEq] at h
  simp_all

/-- In the update branch, filtering for the incoming key yields exactly the
incoming record, provided the table satisfies the key invariant and some row
matches. -/
theorem filter_map_upd (r : DailyTrafficRecord) (t : List DailyTrafficRecord)
    (h : (t.map DailyTrafficRecord.key).Nodup)
    (hany : t.any (fun x => decide (x.key = r.key)) = true) :
    (t.map (fun x =>
        if x.key = r.key then { x with views := r.views, uniques := r.uniques } else x)).filter
      (fun x => decide (x.key = r.key)) = [r] := by
  induction t with
  | nil => simp at hany
  | cons a t ih =>
    simp only [List.map_cons, List.nodup_cons] at h
    obtain ⟨hnotin, hnd⟩ := h
    by_cases hk : a.key = r.key
    · rw [List.map_cons, if_pos hk, trafficUpd_eq a r hk,
        List.filter_cons_of_pos (by simp)]
      have hnil : (t.map (fun x =>
          if x.key = r.key then { x with views := r.views, uniques := r.uniques } else x)).filter
            (fun x => decide (x.key = r.key)) = [] := by
        apply List.filter_eq_nil_iff.mpr
        intro y hy
        obtain ⟨x, hx, rfl⟩ := List.mem_map.mp hy
        have hxk : x.key ≠ r.key := by
          intro hxk
          exact hnotin (by
            rw [← hk] at hxk
            exact hxk ▸ List.mem_map_of_mem DailyTrafficRecord.key hx)
        rw [if_neg hxk]
        simp [hxk]
      rw [hnil]
    · rw [List.map_cons, if_neg hk, List.filter_cons_of_neg (by simp [hk])]
      apply ih hnd
      have := List.any_eq_true.mp hany
      obtain ⟨x, hx, hxk⟩ := this
      rcases List.mem_cons.mp hx with rfl | hx'
      · simp [hk] at hxk
      · exact List.any_eq_true.mpr ⟨x, hx', hxk⟩

/-- After upserting a record, the rows holding its (entity, date) key are
exactly the incoming record, with its new values. -/
theorem rowsFor_upsert_self (t : List DailyTrafficRecord) (r : DailyTrafficRecord)
    (h : trafficPkOk t) :
    rowsFor (upsertTrafficRecord t r) r.key = [r] := by
  unfold upsertTrafficRecord rowsFor
  by_cases hany : t.any (fun x => decide (x.key = r.key)) = true
  · rw [if_pos hany]
    exact filter_map_upd r t h hany
  · rw [if_neg hany, List.filter_append]
    have hnil : t.filter (fun x => decide (x.key = r.key)) = [] := by
      apply List.filter_eq_nil_iff.mpr
      intro x hx
      simp only [decide_eq_true_eq]
      intro hxk
      exact hany (List.any_eq_true.mpr ⟨x, hx, by simp [hxk]⟩)
    rw [hnil]
    simp

/-- Every row of the upserted table holding the incoming key is the incoming
record itself. -/
theorem mem_upsert_key_eq (t : List DailyTrafficRecord) (r x : DailyTrafficRecord)
    (hx : x ∈ upsertTrafficRecord t r) (hk : x.key = r.key) : x = r := by
  unfold upsertTrafficRecord at hx
  by_cases hany : t.any (fun y => decide (y.key = r.key)) = true
  · rw [if_pos hany] at hx
    obtain ⟨x0, hx0, rfl⟩ := List.mem_map.mp hx
    by_cases hk0 : x0.key = r.key
    · rw [if_pos hk0]
      exact trafficUpd_eq x0 r hk0
    · rw [if_neg hk0] at hk ⊢
      exact absurd hk hk0
  · rw [if_neg hany] at hx
    rcases List.mem_append.mp hx with hx' | hx'
    · exact absurd (List.any_eq_true.mpr ⟨x, hx', by simp [hk]⟩) hany
    · simpa using hx'

/-- The incoming key is present after an upsert. -/
theorem key_mem_upsert (t : List DailyTrafficRecord) (r : DailyTrafficRecord) :
    (upsertTrafficRecord t r).any (fun x => decide (x.key = r.key)) = true := by
  unfold upsertTrafficRecord
  by_cases hany : t.any (fun y => decide (y.key = r.key)) = true
  · rw [if_pos hany]
    obtain ⟨x, hx, hxk⟩ := List.any_eq_true.mp hany
    simp only [decide_eq_true_eq] at hxk
    apply List.any_eq_true.mpr
    refine ⟨if x.key = r.key then { x with views := r.views, uniques := r.uniques } else x,
      List.mem_map_of_mem _ hx, ?_⟩
    rw [if_pos hxk]
    simp [trafficUpd_key x r, hxk]
  · rw [if_neg hany]
    apply List.any_eq_true.mpr
    exact ⟨r, by simp, by simp⟩

/-- Upserting the identical record twice equals upserting it once. -/
theorem upsertTrafficRecord_idem (t : List DailyTrafficRecord) (r : DailyTrafficRecord) :
    upsertTrafficRecord (upsertTrafficRecord t r) r = upsertTrafficRecord t r := by
  conv_lhs => rw [upsertTrafficRecord]
  rw [if_pos (key_mem_upsert t r)]
  have hid : ∀ x ∈ upsertTrafficRecord t r,
      (if x.key = r.key then { x with views := r.views, uniques := r.uniques } else x) = x := by
    intro x hx
    by_cases hk : x.key = r.key
    · rw [if_pos hk, trafficUpd_eq x r hk, mem_upsert_key_eq t r x hx hk]
    · rw [if_neg hk]
  rw [List.map_congr_left hid, List.map_id']

/-- Upserting a traffic record leaves the table's key list unchanged in the
update branch and appends the new key in the insert branch. -/
theorem map_key_upsertTrafficRecord (t : List DailyTrafficRecord) (r : DailyTrafficRecord) :
    (upsertTrafficRecord t r).map DailyTrafficRecord.key =
      if t.any (fun x => decide (x.key = r.key)) then t.map DailyTrafficRecord.key
      else t.map DailyTrafficRecord.key ++ [r.key] := by
  unfold upsertTrafficRecord
  by_cases hany : t.any (fun x => decide (x.key = r.key)) = true
  · rw [if_pos hany, if_pos hany, List.map_map]
    apply List.map_congr_left
    intro x _
    simp only [Function.comp_apply]
    by_cases hk : x.key = r.key
    · rw [if_pos hk, trafficUpd_key]
    · rw [if_neg hk]
  · rw [if_neg hany, if_neg hany, List.map_append]
    rfl

/-- The traffic table's primary-key invariant is preserved by a single-record
upsert. -/
theorem trafficPkOk_upsert1 (t : List DailyTrafficRecord) (r : DailyTrafficRecord)
    (h : trafficPkOk t) : trafficPkOk (upsertTrafficRecord t r) := by
  unfold trafficPkOk
  rw [map_key_upsertTrafficRecord]
  by_cases hany : t.any (fun x => decide (x.key = r.key)) = true
  · rw [if_pos hany]
    exact h
  · rw [if_neg hany]
    rw [List.nodup_append]
    refine ⟨h, List.nodup_singleton _, ?_⟩
    intro k hk hk'
    simp only [List.mem_singleton] at hk'
    subst hk'
    obtain ⟨x, hx, hxk⟩ := List.mem_map.mp hk
    exact hany (List.any_eq_true.mpr ⟨x, hx, by simp [hxk]⟩)

/-- The traffic table's primary-key invariant is preserved by a batched
upsert. -/
theorem trafficPkOk_upsert (t : List DailyTrafficRecord) (rs : List DailyTrafficRecord)
    (h : trafficPkOk t) : trafficPkOk (upsert_traffic t rs) := by
  induction rs generalizing t with
  | nil => exact h
  | cons r rs ih => exact ih _ (trafficPkOk_upsert1 t r h)

/-- Overwriting `stars`/`forks`/`watchers` keeps a counters row's key. -/
theorem counterUpd_key (x s : CounterSnapshot) :
    ({ x with stars := s.stars, forks := s.forks, watchers := s.watchers } :
      CounterSnapshot).key = x.key :=
  rfl

/-- Upserting a counters snapshot leaves the table's key list unchanged in
the update branch and appends the new key in the insert branch. -/
theorem map_key_upsert_counters (c : List CounterSnapshot) (s : CounterSnapshot) :
    (upsert_counters c s).map CounterSnapshot.key =
      if c.any (fun x => decide (x.key = s.key)) then c.map CounterSnapshot.key
      else c.map CounterSnapshot.key ++ [s.key] := by
  unfold upsert_counters
  by_cases hany : c.any (fun x => decide (x.key = s.key)) = true
  · rw [if_pos hany, if_pos hany, List.map_map]
    apply List.map_congr_left
    intro x _
    simp only [Function.comp_apply]
    by_cases hk : x.key = s.key
    · rw [if_pos hk, counterUpd_key]
    · rw [if_neg hk]
  · rw [if_neg hany, if_neg hany, List.map_append]
    rfl

/-- The counters table's primary-key invariant is preserved by an upsert. -/
theorem counterPkOk_upsert (c : List CounterSnapshot) (s : CounterSnapshot)
    (h : counterPkOk c) : counterPkOk (upsert_counters c s) := by
  unfold counterPkOk
  rw [map_key_upsert_counters]
  by_cases hany : c.any (fun x => decide (x.key = s.key)) = true
  · rw [if_pos hany]
    exact h
  · rw [if_neg hany]
    rw [List.nodup_append]
    refine ⟨h, List.nodup_singleton _, ?_⟩
    intro k hk hk'
    simp only [List.mem_singleton] at hk'
    subst hk'
    obtain ⟨x, hx, hxk⟩ := List.mem_map.mp hk
    exact hany (List.any_eq_true.mpr ⟨x, hx, by simp [hxk]⟩)

/-- Under the key invariant, at most one stored row holds any given
(entity, date) key. -/
theorem rowsFor_length_le_one (t : List DailyTrafficRecord) (h : trafficPkOk t)
    (k : TrackedEntity × String) : (rowsFor t k).length ≤ 1 := by
  induction t with
  | nil => simp [rowsFor]
  | cons a t ih =>
    simp only [trafficPkOk, List.map_cons, List.nodup_cons] at h
    obtain ⟨hnotin, hnd⟩ := h
    by_cases hk : a.key = k
    · rw [rowsFor, List.filter_cons_of_pos (by simp [hk])]
      have hnil : rowsFor t k = [] := by
        apply List.filter_eq_nil_iff.mpr
        intro x hx
        simp only [decide_eq_true_eq]
        intro hxk
        apply hnotin
        rw [hk, ← hxk]
        exact List.mem_map_of_mem DailyTrafficRecord.key hx
      rw [rowsFor] at hnil
      rw [hnil]
      simp
    · rw [rowsFor, List.filter_cons_of_neg (by simp [hk])]
      exact ih hnd

/-- In the update branch, rows holding a key other than the incoming one are
untouched. -/
theorem filter_map_upd_other (r : DailyTrafficRecord) (k : TrackedEntity × String)
    (hk : k ≠ r.key) (t : List DailyTrafficRecord) :
    (t.map (fun x =>
        if x.key = r.key then { x with views := r.views, uniques := r.uniques } else x)).filter
      (fun x => decide (x.key = k)) = t.filter (fun x => decide (x.key = k)) := by
  induction t with
  | nil => rfl
  | cons a t ih =>
    rw [List.map_cons]
    by_cases hak : a.key = r.key
    · rw [if_pos hak,
        List.filter_cons_of_neg (by
          simp only [decide_eq_true_eq, trafficUpd_key]
          rw [hak]
          exact fun h => hk h.symm),
        List.filter_cons_of_neg (by
          simp only [decide_eq_true_eq]
          rw [hak]
          exact fun h => hk h.symm)]
      exact ih
    · rw [if_neg hak]
      by_cases hakk : a.key = k
      · rw [List.filter_cons_of_pos (by simp [hakk]),
          List.filter_cons_of_pos (by simp [hakk])]
        rw [ih]
      · rw [List.filter_cons_of_neg (by simp [hakk]),
          List.filter_cons_of_neg (by simp [hakk])]
        exact ih

/-- Upserting a record does not disturb rows holding any other key. -/
theorem rowsFor_upsert_other (t : List DailyTrafficRecord) (r : DailyTrafficRecord)
    (k : TrackedEntity × String) (hk : k ≠ r.key) :
    rowsFor (upsertTrafficRecord t r) k = rowsFor t k := by
  unfold upsertTrafficRecord rowsFor
  by_cases hany : t.any (fun x => decide (x.key = r.key)) = true
  · rw [if_pos hany]
    exact filter_map_upd_other r k hk t
  · rw [if_neg hany, List.filter_append]
    have : [r].filter (fun x => decide (x.key = k)) = [] := by
      simp
      exact fun h => hk h.symm
    rw [this, List.append_nil]

/-! ## Claim theorems: store semantics -/

/-- C1: for every prior traffic-table state satisfying the primary-key
invariant and every record, upserting the record leaves exactly one row for
its (entity, date) key, carrying the record's `views`/`uniques`; an existing
row's counts are replaced (never added to) even across a prior upsert of a
different record with the same key; and upserting the identical record twice
equals upserting it once. -/
theorem upsert_traffic_replaces_and_idempotent
    (t : List DailyTrafficRecord) (r : DailyTrafficRecord) (h : trafficPkOk t) :
    rowsFor (upsertTrafficRecord t r) r.key = [r]
    ∧ upsertTrafficRecord (upsertTrafficRecord t r) r = upsertTrafficRecord t r
    ∧ ∀ r' : DailyTrafficRecord, r'.key = r.key →
        rowsFor (upsertTrafficRecord (upsertTrafficRecord t r') r) r.key = [r] := by
  refine ⟨rowsFor_upsert_self t r h, upsertTrafficRecord_idem t r, ?_⟩
  intro r' _
  exact rowsFor_upsert_self (upsertTrafficRecord t r') r (trafficPkOk_upsert1 t r' h)

/-- Witness for C1: upserting (views 10, uniques 4) then (views 15,
uniques 6) for the same (entity, 2024-03-05) key leaves the single row with
views 15 and uniques 6. -/
theorem upsert_traffic_replaces_and_idempotent_witness :
    rowsFor (upsertTrafficRecord (upsertTrafficRecord []
        ⟨⟨"octo", "hello"⟩, "2024-03-05", 10, 4⟩)
        ⟨⟨"octo", "hello"⟩, "2024-03-05", 15, 6⟩)
      (⟨⟨"octo", "hello"⟩, "2024-03-05", 15, 6⟩ : DailyTrafficRecord).key
      = [⟨⟨"octo", "hello"⟩, "2024-03-05", 15, 6⟩] :=
  (upsert_traffic_replaces_and_idempotent []
      ⟨⟨"octo", "hello"⟩, "2024-03-05", 15, 6⟩ (by decide)).2.2
    ⟨⟨"octo", "hello"⟩, "2024-03-05", 10, 4⟩ (by decide)

/-- C2: both tables keep their composite (entity, date) primary key across
upserts: the invariant holds for the freshly created schema, is preserved by
every traffic batch and every counters upsert, implies at most one stored
row per (entity, date) pair, and upserting one key leaves the rows of every
other key — in particular those of a distinct entity with the same date —
unchanged. -/
theorem tables_keyed_by_entity_and_date :
    (∀ (t : List DailyTrafficRecord) (rs : List DailyTrafficRecord),
      trafficPkOk t → trafficPkOk (upsert_traffic t rs))
    ∧ (∀ (c : List CounterSnapshot) (s : CounterSnapshot),
      counterPkOk c → counterPkOk (upsert_counters c s))
    ∧ trafficPkOk ensure_schema.1 ∧ counterPkOk ensure_schema.2
    ∧ (∀ (t : List DailyTrafficRecord) (k : TrackedEntity × String),
      trafficPkOk t → (rowsFor t k).length ≤ 1)
    ∧ (∀ (t : List DailyTrafficRecord) (r : DailyTrafficRecord)
        (k : TrackedEntity × String),
      k ≠ r.key → rowsFor (upsertTrafficRecord t r) k = rowsFor t k) := by
  refine ⟨trafficPkOk_upsert, counterPkOk_upsert, ?_, ?_, ?_, rowsFor_upsert_other⟩
  · simp [trafficPkOk, ensure_schema]
  · simp [counterPkOk, ensure_schema]
  · intro t k h
    exact rowsFor_length_le_one t h k

/-- Witness for C2: upserting a row of entity acme/world on 2024-03-05 into
a table holding a row of entity octo/hello on the same date leaves
octo/hello's row untouched, and the resulting two-entity table still
satisfies the key invariant. -/
theorem tables_keyed_by_entity_and_date_witness :
    rowsFor (upsertTrafficRecord [⟨⟨"octo", "hello"⟩, "2024-03-05", 1, 1⟩]
        ⟨⟨"acme", "world"⟩, "2024-03-05", 2, 2⟩)
      (⟨⟨"octo", "hello"⟩, "2024-03-05", 1, 1⟩ : DailyTrafficRecord).key
      = rowsFor [⟨⟨"octo", "hello"⟩, "2024-03-05", 1, 1⟩]
          (⟨⟨"octo", "hello"⟩, "2024-03-05", 1, 1⟩ : DailyTrafficRecord).key
    ∧ trafficPkOk (upsert_traffic ensure_schema.1
        [⟨⟨"octo", "hello"⟩, "2024-03-05", 1, 1⟩,
         ⟨⟨"acme", "world"⟩, "2024-03-05", 2, 2⟩]) :=
  ⟨tables_keyed_by_entity_and_date.2.2.2.2.2
      [⟨⟨"octo", "hello"⟩, "2024-03-05", 1, 1⟩]
      ⟨⟨"acme", "world"⟩, "2024-03-05", 2, 2⟩ _ (by decide),
   tables_keyed_by_entity_and_date.1 ensure_schema.1
      [⟨⟨"octo", "hello"⟩, "2024-03-05", 1, 1⟩,
       ⟨⟨"acme", "world"⟩, "2024-03-05", 2, 2⟩] (by decide)⟩

/-! ## Lemmas and claim theorem: monthly rollup -/

/-- The keys of the rollup output are the sorted deduplicated
(entity, year-month) group keys of the table. -/
theorem monthly_rollup_keys (t : List DailyTrafficRecord) :
    (monthly_rollup t).map (fun row => (row.entity, row.ym)) =
      List.insertionSort rollKeyLe (t.map monthKey).dedup := by
  unfold monthly_rollup
  rw [List.map_map]
  have h : ∀ k ∈ List.insertionSort rollKeyLe (t.map monthKey).dedup,
      ((fun row : RollupRow => (row.entity, row.ym)) ∘ (fun k : TrackedEntity × String =>
        (⟨k.1, k.2,
          ((groupRows t k).map (·.views)).sum,
          ((groupRows t k).map (·.uniques)).sum⟩ : RollupRow))) k = id k := by
    intro k _
    simp
  rw [List.map_congr_left h, List.map_id]

/-- C3: `monthly_rollup` groups traffic rows by entity and by the first 7
characters of the date, sums `views` and `uniques` over each group, yields
the spec's example value, covers exactly the (entity, year-month) keys
present in the table, and is ordered by entity (namespace then name)
ascending and, within an entity, by year-month ascending (the order
`rollKeyLe`). -/
theorem monthly_rollup_groups_and_sums :
    monthly_rollup [⟨⟨"octo", "hello"⟩, "2024-03-01", 5, 2⟩,
        ⟨⟨"octo", "hello"⟩, "2024-03-02", 7, 3⟩]
      = [⟨⟨"octo", "hello"⟩, "2024-03", 12, 5⟩]
    ∧ (∀ t : List DailyTrafficRecord,
        List.Sorted rollKeyLe ((monthly_rollup t).map (fun row => (row.entity, row.ym))))
    ∧ (∀ (t : List DailyTrafficRecord) (k : TrackedEntity × String),
        k ∈ (monthly_rollup t).map (fun row => (row.entity, row.ym)) ↔ k ∈ t.map monthKey)
    ∧ (∀ (t : List DailyTrafficRecord) (row : RollupRow), row ∈ monthly_rollup t →
        row.total_views = ((groupRows t (row.entity, row.ym)).map (·.views)).sum
        ∧ row.sum_uniques = ((groupRows t (row.entity, row.ym)).map (·.uniques)).sum) := by
  refine ⟨by decide, ?_, ?_, ?_⟩
  · intro t
    rw [monthly_rollup_keys]
    exact List.sorted_insertionSort rollKeyLe _
  · intro t k
    rw [monthly_rollup_keys]
    rw [(List.perm_insertionSort rollKeyLe (t.map monthKey).dedup).mem_iff]
    exact List.mem_dedup
  · intro t row hrow
    unfold monthly_rollup at hrow
    obtain ⟨k, _, rfl⟩ := List.mem_map.mp hrow
    exact ⟨rfl, rfl⟩

/-- Witness for C3: in a one-row table for octo/hello on 2024-03-01, the
rollup row's sums equal the sums over that group's rows. -/
theorem monthly_rollup_groups_and_sums_witness :
    (⟨⟨"octo", "hello"⟩, "2024-03", 5, 2⟩ : RollupRow).total_views
        = ((groupRows [⟨⟨"octo", "hello"⟩, "2024-03-01", 5, 2⟩]
            ((⟨⟨"octo", "hello"⟩, "2024-03", 5, 2⟩ : RollupRow).entity,
             (⟨⟨"octo", "hello"⟩, "2024-03", 5, 2⟩ : RollupRow).ym)).map (·.views)).sum
    ∧ (⟨⟨"octo", "hello"⟩, "2024-03", 5, 2⟩ : RollupRow).sum_uniques
        = ((groupRows [⟨⟨"octo", "hello"⟩, "2024-03-01", 5, 2⟩]
            ((⟨⟨"octo", "hello"⟩, "2024-03", 5, 2⟩ : RollupRow).entity,
             (⟨⟨"octo", "hello"⟩, "2024-03", 5, 2⟩ : RollupRow).ym)).map (·.uniques)).sum :=
  monthly_rollup_groups_and_sums.2.2.2 [⟨⟨"octo", "hello"⟩, "2024-03-01", 5, 2⟩]
    ⟨⟨"octo", "hello"⟩, "2024-03", 5, 2⟩ (by decide)

/-! ## Lemmas and claim theorem: latest counters snapshot -/

/-- The running maximum is at least its seed. -/
theorem foldl_max_seed_le (l : List CounterSnapshot) (b : CounterSnapshot) :
    strKey b.date ≤
      strKey (l.foldl (fun b y => if strKey b.date ≤ strKey y.date then y else b) b).date := by
  induction l generalizing b with
  | nil => exact le_refl _
  | cons y l ih =>
    rw [List.foldl_cons]
    refine le_trans ?_ (ih (if strKey b.date ≤ strKey y.date then y else b))
    by_cases hc : strKey b.date ≤ strKey y.date
    · rw [if_pos hc]
      exact hc
    · rw [if_neg hc]

/-- The running maximum is an element of the seed and the list. -/
theorem foldl_max_mem (l : List CounterSnapshot) (b : CounterSnapshot) :
    l.foldl (fun b y => if strKey b.date ≤ strKey y.date then y else b) b ∈ b :: l := by
  induction l generalizing b with
  | nil => simp
  | cons y l ih =>
    rw [List.foldl_cons]
    rcases List.mem_cons.mp (ih (if strKey b.date ≤ strKey y.date then y else b)) with h | h
    · rw [h]
      by_cases hc : strKey b.date ≤ strKey y.date
      · rw [if_pos hc]
        simp
      · rw [if_neg hc]
        simp
    · exact List.mem_cons_of_mem b (List.mem_cons_of_mem y h)

/-- The running maximum dominates every element of the seed and the list. -/
theorem foldl_max_ge (l : List CounterSnapshot) (b x : CounterSnapshot) (hx : x ∈ b :: l) :
    strKey x.date ≤
      strKey (l.foldl (fun b y => if strKey b.date ≤ strKey y.date then y else b) b).date := by
  induction l generalizing b with
  | nil =>
    simp only [List.mem_singleton] at hx
    subst hx
    exact le_refl _
  | cons y l ih =>
    rw [List.foldl_cons]
    rcases List.mem_cons.mp hx with rfl | hx'
    · exact le_trans (by
        by_cases hc : strKey x.date ≤ strKey y.date
        · rw [if_pos hc]; exact hc
        · rw [if_neg hc]) (foldl_max_seed_le l _)
    · rcases List.mem_cons.mp hx' with rfl | hx''
      · refine le_trans ?_ (foldl_max_seed_le l _)
        by_cases hc : strKey b.date ≤ strKey x.date
        · rw [if_pos hc]
        · rw [if_neg hc]
          exact le_of_not_le hc
      · exact ih _ (List.mem_cons_of_mem _ hx'')

/-- `maxByDate` returns a member whose date dominates the whole list. -/
theorem maxByDate_spec (l : List CounterSnapshot) (m : CounterSnapshot)
    (h : maxByDate l = some m) :
    m ∈ l ∧ ∀ x ∈ l, strKey x.date ≤ strKey m.date := by
  cases l with
  | nil => simp [maxByDate] at h
  | cons b l =>
    rw [maxByDate] at h
    injection h with h
    subst h
    exact ⟨foldl_max_mem l b, fun x hx => foldl_max_ge l b x hx⟩

/-- The row `maxByDate` selects for an entity belongs to the table and has
that entity. -/
theorem maxByDate_entity (c : List CounterSnapshot) (e : TrackedEntity)
    (r : CounterSnapshot) (h : maxByDate (entityRows c e) = some r) :
    r ∈ c ∧ r.entity = e := by
  have hmem := (maxByDate_spec _ r h).1
  have := List.mem_filter.mp hmem
  exact ⟨this.1, by simpa using this.2⟩

/-- For a list of entities each present in the table, `latest_counts`'s
`filterMap` returns one row per entity, in order. -/
theorem filterMap_maxByDate_entities (c : List CounterSnapshot)
    (es : List TrackedEntity) (h : ∀ e ∈ es, entityRows c e ≠ []) :
    ((es.filterMap (fun e => maxByDate (entityRows c e))).map (·.entity)) = es := by
  induction es with
  | nil => rfl
  | cons e es ih =>
    have hne := h e (List.mem_cons_self e es)
    obtain ⟨x, xs, hx⟩ : ∃ x xs, entityRows c e = x :: xs := by
      cases hcase : entityRows c e with
      | nil => exact absurd hcase hne
      | cons x xs => exact ⟨x, xs, rfl⟩
    have hm : maxByDate (entityRows c e) =
        some (xs.foldl (fun b y => if strKey b.date ≤ strKey y.date then y else b) x) := by
      rw [hx, maxByDate]
    rw [List.filterMap_cons, hm, List.map_cons,
      (maxByDate_entity c e _ hm).2,
      ih (fun e' he' => h e' (List.mem_cons_of_mem _ he'))]

/-- C4: `latest_counts` yields the spec's example value; under the key
invariant each returned row is a stored row whose date is maximal among its
entity's rows and is the unique such row; and the returned entities are
exactly the entities present in the table, each once, sorted ascending. -/
theorem latest_counts_per_entity_max :
    latest_counts [⟨⟨"octo", "hello"⟩, "2024-03-01", 1, 1, 1⟩,
        ⟨⟨"octo", "hello"⟩, "2024-03-05", 2, 2, 2⟩]
      = [⟨⟨"octo", "hello"⟩, "2024-03-05", 2, 2, 2⟩]
    ∧ (∀ (c : List CounterSnapshot) (r : CounterSnapshot),
        counterPkOk c → r ∈ latest_counts c →
          r ∈ c ∧ ∀ r' ∈ c, r'.entity = r.entity →
            (strKey r'.date ≤ strKey r.date ∧ (r'.date = r.date → r' = r)))
    ∧ (∀ c : List CounterSnapshot,
        (latest_counts c).map (·.entity) =
          List.insertionSort entLe (c.map (·.entity)).dedup) := by
  refine ⟨by decide, ?_, ?_⟩
  · intro c r hpk hr
    obtain ⟨e, _, hm⟩ := List.mem_filterMap.mp hr
    have hrc := maxByDate_entity c e r hm
    refine ⟨hrc.1, fun r' hr' hre => ?_⟩
    have hr'mem : r' ∈ entityRows c e := by
      apply List.mem_filter.mpr
      exact ⟨hr', by simp [hre, hrc.2]⟩
    refine ⟨(maxByDate_spec _ r hm).2 r' hr'mem, fun hdate => ?_⟩
    apply List.inj_on_of_nodup_map hpk hr' hrc.1
    simp [CounterSnapshot.key, hre, hdate]
  · intro c
    unfold latest_counts
    apply filterMap_maxByDate_entities
    intro e he
    have : e ∈ c.map (·.entity) :=
      List.mem_dedup.mp ((List.perm_insertionSort entLe _).mem_iff.mp he)
    obtain ⟨row, hrow, hre⟩ := List.mem_map.mp this
    intro hnil
    have : row ∈ entityRows c e := List.mem_filter.mpr ⟨hrow, by simp [hre]⟩
    rw [hnil] at this
    exact absurd this (List.not_mem_nil row)

/-- Witness for C4: with snapshots for octo/hello on 2024-03-01 and
2024-03-05, the returned 2024-03-05 row is stored and dominates both rows'
dates. -/
theorem latest_counts_per_entity_max_witness :
    (⟨⟨"octo", "hello"⟩, "2024-03-05", 2, 2, 2⟩ : CounterSnapshot) ∈
        [⟨⟨"octo", "hello"⟩, "2024-03-01", 1, 1, 1⟩,
         ⟨⟨"octo", "hello"⟩, "2024-03-05", 2, 2, 2⟩]
    ∧ ∀ r' ∈ [⟨⟨"octo", "hello"⟩, "2024-03-01", 1, 1, 1⟩,
         (⟨⟨"octo", "hello"⟩, "2024-03-05", 2, 2, 2⟩ : CounterSnapshot)],
        r'.entity = (⟨⟨"octo", "hello"⟩, "2024-03-05", 2, 2, 2⟩ : CounterSnapshot).entity →
          (strKey r'.date ≤
              strKey (⟨⟨"octo", "hello"⟩, "2024-03-05", 2, 2, 2⟩ : CounterSnapshot).date
           ∧ (r'.date = (⟨⟨"octo", "hello"⟩, "2024-03-05", 2, 2, 2⟩ : CounterSnapshot).date →
                r' = ⟨⟨"octo", "hello"⟩, "2024-03-05", 2, 2, 2⟩)) :=
  latest_counts_per_entity_max.2.1
    [⟨⟨"octo", "hello"⟩, "2024-03-01", 1, 1, 1⟩,
     ⟨⟨"octo", "hello"⟩, "2024-03-05", 2, 2, 2⟩]
    ⟨⟨"octo", "hello"⟩, "2024-03-05", 2, 2, 2⟩ (by decide) (by decide)

/-! ## Claim theorems: orchestrator and fetch normalization -/

/-- C5: when the traffic fetch returns an empty list, the run performs no
traffic write and leaves the traffic table exactly as it was, while the
counters snapshot is still fetched and upserted. -/
theorem empty_traffic_no_writes (e : Env) (db : DB) (cfg : Config)
    (hc : e.configFile = some cfg)
    (ht : fetch_traffic_views e.trafficPayload = []) :
    (mainRun e db).2
      = .ok ⟨db.traffic, upsert_repo_counts db.counts (fetch_repo_counts e.today e.repoPayload)⟩
    ∧ (∀ rows, RunAction.writeTraffic rows ∉ (mainRun e db).1)
    ∧ RunAction.writeCounts (fetch_repo_counts e.today e.repoPayload) ∈ (mainRun e db).1 := by
  refine ⟨?_, ?_, ?_⟩ <;>
    simp [mainRun, hc, ht]

/-- Witness for C5: a run whose traffic payload is empty returns the prior
traffic table unchanged with the counters snapshot upserted. -/
theorem empty_traffic_no_writes_witness :
    (mainRun ⟨some ⟨some "tok", some "octo", some "hello"⟩, ⟨none⟩, [], "2024-03-05"⟩
        ⟨[⟨"2024-03-04", 9, 9⟩], []⟩).2
      = .ok ⟨[⟨"2024-03-04", 9, 9⟩],
          upsert_repo_counts []
            (fetch_repo_counts "2024-03-05" [])⟩ :=
  (empty_traffic_no_writes
      ⟨some ⟨some "tok", some "octo", some "hello"⟩, ⟨none⟩, [], "2024-03-05"⟩
      ⟨[⟨"2024-03-04", 9, 9⟩], []⟩
      ⟨some "tok", some "octo", some "hello"⟩ rfl rfl).1

/-- C6: `fetch_repo_counts` stamps the snapshot with the caller's current
date argument, and a numeric counter field absent from the payload defaults
to zero. -/
theorem fetch_counters_stamps_date_and_defaults (now : String) (j : RepoJson) :
    (fetch_repo_counts now j).date = now
    ∧ ((∀ kv ∈ j, kv.1 ≠ "forks_count") → (fetch_repo_counts now j).forks = 0)
    ∧ ((∀ kv ∈ j, kv.1 ≠ "stargazers_count") → (fetch_repo_counts now j).stars = 0)
    ∧ ((∀ kv ∈ j, kv.1 ≠ "subscribers_count") → (fetch_repo_counts now j).watchers = 0) := by
  refine ⟨rfl, fun h => ?_, fun h => ?_, fun h => ?_⟩ <;>
  · show dictGet j _ 0 = 0
    unfold dictGet
    rw [List.find?_eq_none.mpr (by
      intro kv hkv
      simpa using h kv hkv)]
    rfl

/-- Witness for C6: a payload carrying stars and subscribers but no
`forks_count` yields `forks = 0`. -/
theorem fetch_counters_stamps_date_and_defaults_witness :
    (fetch_repo_counts "2024-03-05"
        [("stargazers_count", 7), ("subscribers_count", 3)]).forks = 0 :=
  (fetch_counters_stamps_date_and_defaults "2024-03-05"
      [("stargazers_count", 7), ("subscribers_count", 3)]).2.1 (by decide)

/-- C7: `gh_get` fails with the upstream error carrying status and body
exactly on a non-success HTTP response, fails with the transport error
exactly on a network-level failure, timeout expiry (a `URLError`) surfaces
as the transport kind, and the per-call timeout bound is 30 seconds. -/
theorem gh_get_error_taxonomy :
    (∀ (α : Type) (r : HttpResult α) (c : Nat) (b : String),
        gh_get r = .error (.upstream c b) ↔ r = .httpError c b)
    ∧ (∀ (α : Type) (r : HttpResult α) (m : String),
        gh_get r = .error (.transport m) ↔ r = .urlError m)
    ∧ (∀ α : Type, gh_get (HttpResult.urlError timedOutReason : HttpResult α)
        = .error (.transport timedOutReason))
    ∧ ghTimeoutSeconds = 30 := by
  refine ⟨?_, ?_, fun α => rfl, rfl⟩
  · intro α r c b
    cases r <;> simp [gh_get]
  · intro α r m
    cases r <;> simp [gh_get]

/-- C9: the snapshot's `watchers` is sourced from the payload's
`subscribers_count` (0 if absent), not from `stargazers_count`: overriding
the star count leaves `watchers` unchanged. -/
theorem watchers_from_subscribers (now : String) (j : RepoJson) :
    (fetch_repo_counts now j).watchers = dictGet j "subscribers_count" 0
    ∧ (fetch_repo_counts now j).stars = dictGet j "stargazers_count" 0
    ∧ ∀ s : Int,
        (fetch_repo_counts now (("stargazers_count", s) :: j)).watchers
          = (fetch_repo_counts now j).watchers := by
  refine ⟨rfl, rfl, fun s => ?_⟩
  show dictGet (("stargazers_count", s) :: j) "subscribers_count" 0
      = dictGet j "subscribers_count" 0
  unfold dictGet
  rw [List.find?_cons_of_neg]
  simp

/-- Helper for C10: the script's append-in-a-loop equals a `map` over the
payload's items. -/
theorem foldl_append_eq_map (l : List ViewItem) (acc : List TrafficViewRow) :
    l.foldl (fun rows v =>
        rows ++ [⟨v.timestamp.take 10, v.count.getD 0, v.uniques.getD 0⟩]) acc
      = acc ++ l.map (fun v => ⟨v.timestamp.take 10, v.count.getD 0, v.uniques.getD 0⟩) := by
  induction l generalizing acc with
  | nil => simp
  | cons v l ih =>
    rw [List.foldl_cons, ih, List.map_cons, List.append_assoc, List.singleton_append]

/-- C10: `fetch_traffic_views` maps each payload item, in payload order, to a
row whose date is the first 10 characters of the item's timestamp and whose
`views`/`uniques` default to 0 when the item lacks `count`/`uniques`; a
payload with no `views` array yields the empty list. -/
theorem fetch_traffic_missing_field_tolerance (p : TrafficPayload) :
    fetch_traffic_views p
      = (p.views.getD []).map
          (fun v => ⟨v.timestamp.take 10, v.count.getD 0, v.uniques.getD 0⟩)
    ∧ (p.views = none → fetch_traffic_views p = []) := by
  refine ⟨?_, fun hn => ?_⟩
  · rw [fetch_traffic_views, foldl_append_eq_map, List.nil_append]
  · rw [fetch_traffic_views, hn]
    rfl

/-- Witness for C10: a payload whose `views` array is absent yields no rows,
and one whose single item lacks `count` yields that day with 0 views. -/
theorem fetch_traffic_missing_field_tolerance_witness :
    fetch_traffic_views ⟨none⟩ = []
    ∧ fetch_traffic_views ⟨some [⟨"2024-03-05T00:00:00Z", none, some 4⟩]⟩
        = [⟨"2024-03-05", 0, 4⟩] :=
  ⟨(fetch_traffic_missing_field_tolerance ⟨none⟩).2 rfl,
   by
    rw [(fetch_traffic_missing_field_tolerance
        ⟨some [⟨"2024-03-05T00:00:00Z", none, some 4⟩]⟩).1]
    decide⟩

/-! ## Claim theorems: startup failures -/

/-- Counterexample to C8: with the configuration file present but the
credential (`github_token`) missing, the run does not terminate before
network or database work — it completes successfully, and its trace contains
a network GET issued without an authorization header (after the `ensure_db`
database step). -/
theorem missing_credential_does_not_abort :
    (mainRun ⟨some ⟨none, some "octo", some "hello"⟩, ⟨none⟩, [], "2024-03-05"⟩
        ⟨[], []⟩).2.isOk = true
    ∧ RunAction.netGet "/repos/octo/hello/traffic/views" false
        ∈ (mainRun ⟨some ⟨none, some "octo", some "hello"⟩, ⟨none⟩, [], "2024-03-05"⟩
            ⟨[], []⟩).1
    ∧ RunAction.ensureDb
        ∈ (mainRun ⟨some ⟨none, some "octo", some "hello"⟩, ⟨none⟩, [], "2024-03-05"⟩
            ⟨[], []⟩).1 := by
  refine ⟨rfl, ?_, ?_⟩ <;> decide

/-- C8 as amended: a missing configuration file terminates the run
abnormally with an empty action trace — before any network or database work,
so nothing is written — and, in the spec's multi-entity variant, a missing
file or an empty entity list is rejected by configuration loading; a missing
credential, however, does not abort: the run proceeds and issues its
requests without an authorization header. -/
theorem config_file_missing_aborts_before_work (e : Env) (db : DB)
    (f : Option MultiConfig) (mc : MultiConfig) :
    (e.configFile = none → mainRun e db = ([], .error "Config file not found"))
    ∧ (load_config e = .error "Config file not found" ↔ e.configFile = none)
    ∧ (f = none → load_config_multi f = .error .fileMissing)
    ∧ (f = some mc → mc.entities = [] → load_config_multi f = .error .emptyEntityList)
    ∧ (∀ cfg : Config, e.configFile = some cfg → cfg.github_token = none →
        (mainRun e db).2.isOk = true
        ∧ RunAction.netGet
            ("/repos/" ++ pyStr cfg.owner ++ "/" ++ pyStr cfg.repo ++ "/traffic/views")
            false ∈ (mainRun e db).1) := by
  refine ⟨fun h => ?_, ?_, fun h => ?_, fun h h' => ?_, fun cfg hc htok => ?_⟩
  · rw [mainRun, h]
  · cases h : e.configFile with
    | none => simp [load_config, h]
    | some c => simp [load_config, h]
  · rw [h]
    rfl
  · rw [h, load_config_multi, h']
    rfl
  · refine ⟨?_, ?_⟩ <;>
      simp [mainRun, hc, htok, tokenTruthy, Except.isOk, Except.toBool]

/-- Witness for the amended C8: a run with no configuration file produces an
empty trace and an error, and multi-entity loading rejects an empty entity
list. -/
theorem config_file_missing_aborts_before_work_witness :
    mainRun ⟨none, ⟨none⟩, [], "2024-03-05"⟩ ⟨[], []⟩
        = ([], .error "Config file not found")
    ∧ load_config_multi (some ⟨some "tok", []⟩) = .error .emptyEntityList :=
  ⟨(config_file_missing_aborts_before_work ⟨none, ⟨none⟩, [], "2024-03-05"⟩ ⟨[], []⟩
      (some ⟨some "tok", []⟩) ⟨some "tok", []⟩).1 rfl,
   (config_file_missing_aborts_before_work ⟨none, ⟨none⟩, [], "2024-03-05"⟩ ⟨[], []⟩
      (some ⟨some "tok", []⟩) ⟨some "tok", []⟩).2.2.2.1 rfl rfl⟩
